import Mathlib

/-!
Shallow embedding of src/internal/crypto/crypto.go (package crypto of
julianstephens/backup-mgr-cli).

Bytes are modelled as `Nat`, byte slices as `List Nat`.  A Go function that
returns `(value, err)` is modelled with `GoResult`; a Go `panic` is modelled
with the `panicked` constructor, which is distinct from returning a non-nil
error value to the caller.

The cryptographic primitives the package calls into
(`golang.org/x/crypto/chacha20poly1305`, `golang.org/x/crypto/argon2`,
`crypto/rand`, `wagslane/go-password-validator`) are third-party libraries,
not code of this repository; they are modelled as explicit parameters:

* the entropy source (`crypto/rand.Read`) is an `Option (List Nat)`: `none`
  models a read error, `some bs` models a successful read that fills the
  destination buffer from the byte stream `bs`;
* the XChaCha20-Poly1305 AEAD is an `XChaCha` structure holding `Seal` and
  `Open` as pure functions on byte strings; the properties the library
  documents (output length, seal/open round-trip, associated-data binding)
  are stated as predicates and taken as hypotheses where a claim needs them.
  Note that the Go library reads the `additionalData []byte` argument purely
  as a byte string, so a nil slice and an empty slice are indistinguishable
  to it; the embedding therefore passes `[]` where the source passes `nil`;
* `argon2.IDKey` and `passwordvalidator.Validate` are deterministic pure
  library functions, passed in as function parameters.
-/

/-- Errors of the crypto package, with the wrapped length context kept where
the source formats expected and actual lengths into the message. -/
inductive CryptoError where
  | invalidSalt (expected actual : Nat)
  | invalidPassword
  | invalidRandomSize
  | generationError
  | allZeroNonce
  | tooShortCiphertext
  | cipherInitError
  | authenticationError
  deriving DecidableEq, Repr

/-- Result of a Go function: a value, a returned non-nil error, or a panic
(the latter aborts the caller rather than being returned as a value). -/
inductive GoResult (α : Type) where
  | ok : α → GoResult α
  | err : CryptoError → GoResult α
  | panicked : CryptoError → GoResult α
  deriving DecidableEq, Repr

/-- Argon2 cost parameters (struct Params). Go `int` fields are modelled as
`Int`. -/
structure Params where
  T : Int
  M : Int
  P : Int
  L : Int
  deriving DecidableEq, Repr

/-- A key wraps a byte slice (struct Key, field Data []byte). -/
structure Key where
  Data : List Nat
  deriving DecidableEq, Repr

def passwordEntropy : Nat := 60

def saltSize : Nat := 32

/-- chacha20poly1305.KeySize. -/
def keySize : Nat := 32

/-- chacha20poly1305.NonceSizeX. -/
def nonceSize : Nat := 24

/-- DefaultParams: T=1, M=int(64*units.KiB)=65536, P=4, L=keySize. -/
def DefaultParams : Params := ⟨1, 64 * 1024, 4, (keySize : Int)⟩

/-- Go conversion uint32(i) for i : int. -/
def u32 (i : Int) : Nat := (i % ((2 : Int) ^ 32)).toNat

/-- Go conversion uint8(i) for i : int. -/
def u8 (i : Int) : Nat := (i % ((2 : Int) ^ 8)).toNat

/-- A successful crypto/rand.Read fills all `size` bytes of the destination
buffer from the entropy stream `bs` (padding with 0 only in the off-model
case that the stream is shorter than the request). -/
def fill (size : Nat) (bs : List Nat) : List Nat :=
  (bs ++ List.replicate size 0).take size

/-- Go builtin copy(dst, src): overwrites the first min(len dst, len src)
elements of dst, returning the new contents of dst. -/
def goCopy (dst src : List Nat) : List Nat :=
  src.take dst.length ++ dst.drop src.length

/-- NewRandom generates a cryptographically secure random byte array;
errors on size 0 and propagates entropy-source failure. -/
def NewRandom (entropy : Option (List Nat)) (size : Nat) : GoResult (List Nat) :=
  if size = 0 then .err .invalidRandomSize
  else
    match entropy with
    | none => .err .generationError
    | some bs => .ok (fill size bs)

/-- validateSaltLen panics (does not return an error) when the salt length
is not saltSize. -/
def validateSaltLen (salt : List Nat) : GoResult Unit :=
  if salt.length ≠ saltSize then
    .panicked (.invalidSalt saltSize salt.length)
  else .ok ()

/-- NewSessionKey: validates the salt length (panicking on mismatch), draws
keySize random bytes, then copies them into `key.Data[:]` where `key` is the
zero value `&Key{}` — whose `Data` is a nil slice, so the copy transfers
zero bytes. -/
def NewSessionKey (entropy : Option (List Nat)) (salt : List Nat) : GoResult Key :=
  match validateSaltLen salt with
  | .panicked e => .panicked e
  | .err e => .err e
  | .ok _ =>
    match NewRandom entropy keySize with
    | .err e => .err e
    | .panicked e => .panicked e
    | .ok r => .ok ⟨goCopy [] r⟩

/-- NewIDKey: validates salt length (returning a wrapped ErrInvalidSalt),
then password strength, then derives the key with argon2.IDKey.  The two
library functions are passed in as parameters: `argon2IDKey password salt
t m p l` and `pwValidate password minEntropy` (true means the password was
accepted). -/
def NewIDKey (argon2IDKey : List Nat → List Nat → Nat → Nat → Nat → Nat → List Nat)
    (pwValidate : List Nat → Nat → Bool)
    (params : Params) (password : List Nat) (salt : List Nat) : GoResult Key :=
  if salt.length ≠ saltSize then
    .err (.invalidSalt saltSize salt.length)
  else if pwValidate password passwordEntropy then
    .ok ⟨argon2IDKey password salt (u32 params.T) (u32 params.M) (u8 params.P) (u32 params.L)⟩
  else .err .invalidPassword

/-- NewNonce allocates a buffer of length nonceSize (the extra capacity for
ciphertext and tag is only a capacity hint), fills it from the entropy
source, and rejects an all-zero nonce, detected by OR-accumulating all
bytes. -/
def NewNonce (entropy : Option (List Nat)) (ciphertextLen overheadLen : Nat) :
    GoResult (List Nat) :=
  match entropy with
  | none => .err .generationError
  | some bs =>
    let nonce := fill nonceSize bs
    let total := nonce.foldl Nat.lor 0
    if 0 < total then .ok nonce else .err .allZeroNonce

/-- The XChaCha20-Poly1305 primitive bound by chacha20poly1305.NewX, as pure
functions of the key and the byte-string arguments of Seal and Open.  Open
returns none on authentication failure. -/
structure XChaCha where
  aeadSeal : (key nonce plaintext ad : List Nat) → List Nat
  aeadOpen : (key nonce ciphertext ad : List Nat) → Option (List Nat)

/-- Documented property of the AEAD: Seal output is plaintext length plus a
16-byte tag (aead.Overhead() = 16). -/
def SealLen (C : XChaCha) : Prop :=
  ∀ k n p a, (C.aeadSeal k n p a).length = p.length + 16

/-- Documented property of the AEAD: opening a sealed message with the same
key, nonce and associated data yields the plaintext. -/
def RoundTrip (C : XChaCha) : Prop :=
  ∀ k n p a, C.aeadOpen k n (C.aeadSeal k n p a) a = some p

/-- Documented property of the AEAD: opening with associated data whose byte
content differs from the one used at seal time fails. -/
def ADBinding (C : XChaCha) : Prop :=
  ∀ k n p a b, a ≠ b → C.aeadOpen k n (C.aeadSeal k n p a) b = none

/-- The byte string the AEAD library sees for an `additionalData *[]byte`
argument: dereferenced when non-nil, and the empty byte string for nil. -/
def adBytes : Option (List Nat) → List Nat
  | none => []
  | some a => a

/-- Encrypt: initializes the AEAD (which fails unless the key is exactly
keySize bytes), generates a nonce, and returns
aead.Seal(nonce, nonce, plaintext, ad) = nonce ++ sealed output, where the
source passes nil for absent associated data and the dereferenced slice
otherwise. -/
def Encrypt (C : XChaCha) (entropy : Option (List Nat)) (key : Key)
    (plaintext : List Nat) (additionalData : Option (List Nat)) : GoResult (List Nat) :=
  if key.Data.length ≠ keySize then .err .cipherInitError
  else
    match NewNonce entropy plaintext.length 16 with
    | .err e => .err e
    | .panicked e => .panicked e
    | .ok nonce =>
      match additionalData with
      | none => .ok (nonce ++ C.aeadSeal key.Data nonce plaintext [])
      | some ad => .ok (nonce ++ C.aeadSeal key.Data nonce plaintext ad)

/-- Decrypt: initializes the AEAD (failing unless the key is exactly keySize
bytes), rejects inputs shorter than the nonce size, splits the input into
nonce and sealed body, and opens with the same associated-data convention
as Encrypt.  aead.Open returning an error yields an authentication error
and no plaintext. -/
def Decrypt (C : XChaCha) (key : Key) (encrypted : List Nat)
    (additionalData : Option (List Nat)) : GoResult (List Nat) :=
  if key.Data.length ≠ keySize then .err .cipherInitError
  else if encrypted.length < nonceSize then .err .tooShortCiphertext
  else
    let nonce := encrypted.take nonceSize
    let ciphertext := encrypted.drop nonceSize
    let res :=
      match additionalData with
      | none => C.aeadOpen key.Data nonce ciphertext []
      | some ad => C.aeadOpen key.Data nonce ciphertext ad
    match res with
    | none => .err .authenticationError
    | some p => .ok p

/-- A concrete AEAD instance used to instantiate hypotheses in witnesses:
the sealed output is the plaintext followed by a 16-byte tag of zeros.
It satisfies SealLen and RoundTrip. -/
def padAEAD : XChaCha where
  aeadSeal := fun _ _ p _ => p ++ List.replicate 16 0
  aeadOpen := fun _ _ ct _ => some (ct.take (ct.length - 16))

/-- A concrete AEAD instance whose tag records the associated data, so that
it satisfies both RoundTrip and ADBinding. -/
def tagAEAD : XChaCha where
  aeadSeal := fun _ _ p a => a.length :: (a ++ p)
  aeadOpen := fun _ _ ct b =>
    match ct with
    | [] => none
    | l :: rest =>
      if l = b.length ∧ rest.take b.length = b then some (rest.drop b.length)
      else none

/-- UTF-8 bytes of the string hello world. -/
def helloWorld : List Nat := [104, 101, 108, 108, 111, 32, 119, 111, 114, 108, 100]

/-- A heap of byte buffers, used to make Encrypt's writes explicit: `store i`
is the contents of buffer `i`, and every id below `next` is an allocated
buffer owned by the caller. -/
structure Heap where
  store : Nat → List Nat
  next : Nat

/-- Allocation of a fresh buffer (Go make), returning its id and the new
heap. -/
def Heap.alloc (h : Heap) (bs : List Nat) : Nat × Heap :=
  (h.next, ⟨fun i => if i = h.next then bs else h.store i, h.next + 1⟩)

/-- In-place write to an existing buffer's backing array. -/
def Heap.write (h : Heap) (i : Nat) (bs : List Nat) : Heap :=
  ⟨fun j => if j = i then bs else h.store j, h.next⟩

/-- The heap-explicit form of Encrypt, recording every buffer write the
source performs: NewNonce allocates a fresh buffer (make) and fills its
nonce-length prefix, and aead.Seal(nonce, nonce, plaintext, ad) appends the
sealed output into that same fresh buffer's backing array (its capacity was
reserved for it).  The key is only read (NewX copies it into the cipher
state) and the plaintext is only read by Seal. -/
def EncryptH (C : XChaCha) (entropy : Option (List Nat)) (h : Heap)
    (keyId ptId : Nat) (ad : Option (List Nat)) : GoResult Nat × Heap :=
  let key := h.store keyId
  if key.length ≠ keySize then (.err .cipherInitError, h)
  else
    match entropy with
    | none =>
      let p := h.alloc (List.replicate nonceSize 0)
      (.err .generationError, p.2)
    | some bs =>
      let pt := h.store ptId
      let nonce := fill nonceSize bs
      let p := h.alloc nonce
      if 0 < nonce.foldl Nat.lor 0 then
        (.ok p.1, p.2.write p.1 (nonce ++ C.aeadSeal key nonce pt (adBytes ad)))
      else (.err .allZeroNonce, p.2)

/-- A concrete two-buffer heap for evaluating EncryptH: buffer 0 holds a
32-byte key, buffer 1 a 2-byte plaintext. -/
def h0 : Heap :=
  ⟨fun i => if i = 0 then List.replicate 32 0 else if i = 1 then [1, 2] else [], 2⟩

theorem fill_length (size : Nat) (bs : List Nat) : (fill size bs).length = size := by
  simp [fill]

theorem padAEAD_sealLen : SealLen padAEAD := by
  intro k n p a
  simp [padAEAD]

theorem padAEAD_roundtrip : RoundTrip padAEAD := by
  intro k n p a
  simp [padAEAD, List.take_left]

theorem tagAEAD_roundtrip : RoundTrip tagAEAD := by
  intro k n p a
  simp [tagAEAD, List.take_left, List.drop_left]

theorem tagAEAD_adBinding : ADBinding tagAEAD := by
  intro k n p a b hab
  simp only [tagAEAD]
  rw [if_neg]
  intro h
  rcases h with ⟨hlen, htake⟩
  apply hab
  rw [← hlen] at htake
  rw [List.take_left] at htake
  exact htake

theorem encrypt_ok (C : XChaCha) (entropy : Option (List Nat)) (key : Key)
    (pt : List Nat) (ad : Option (List Nat)) (ct : List Nat)
    (h : Encrypt C entropy key pt ad = GoResult.ok ct) :
    ∃ bs, entropy = some bs ∧ key.Data.length = keySize ∧
      0 < (fill nonceSize bs).foldl Nat.lor 0 ∧
      ct = fill nonceSize bs ++ C.aeadSeal key.Data (fill nonceSize bs) pt (adBytes ad) := by
  unfold Encrypt at h
  split at h
  · exact (GoResult.noConfusion h)
  next hk =>
    rcases entropy with _ | bs
    · simp [NewNonce] at h
    · simp only [NewNonce] at h
      refine ⟨bs, rfl, not_not.mp hk, ?_⟩
      split at h
      · exact (GoResult.noConfusion h)
      · exact (GoResult.noConfusion h)
      next r heq =>
        have hzr : 0 < (fill nonceSize bs).foldl Nat.lor 0 ∧ r = fill nonceSize bs := by
          by_cases hc : 0 < (fill nonceSize bs).foldl Nat.lor 0
          · rw [if_pos hc] at heq
            exact ⟨hc, by injection heq with h2; rw [h2]⟩
          · rw [if_neg hc] at heq
            exact (GoResult.noConfusion heq)
        obtain ⟨hc, hr⟩ := hzr
        subst hr
        refine ⟨hc, ?_⟩
        rcases ad with _ | a
        · injection h with h2
          rw [← h2]
          rfl
        · injection h with h2
          rw [← h2]
          rfl

theorem decrypt_open (C : XChaCha) (key : Key) (encrypted : List Nat)
    (ad : Option (List Nat)) (hk : key.Data.length = keySize)
    (hlen : ¬ encrypted.length < nonceSize) :
    Decrypt C key encrypted ad =
      match C.aeadOpen key.Data (encrypted.take nonceSize) (encrypted.drop nonceSize)
          (adBytes ad) with
      | none => GoResult.err CryptoError.authenticationError
      | some p => GoResult.ok p := by
  unfold Decrypt
  rw [if_neg (not_not_intro hk), if_neg hlen]
  cases ad <;> rfl

/-- C1: for every key, plaintext and associated data (empty or absent
included), decrypting the result of a successful encryption with the same
key and associated data returns exactly the original plaintext, for any
AEAD primitive satisfying its documented seal/open round-trip property. -/
theorem encrypt_decrypt_roundtrip (C : XChaCha) (hC : RoundTrip C)
    (entropy : Option (List Nat)) (key : Key) (plaintext : List Nat)
    (ad : Option (List Nat)) (ct : List Nat)
    (henc : Encrypt C entropy key plaintext ad = GoResult.ok ct) :
    Decrypt C key ct ad = GoResult.ok plaintext := by
  obtain ⟨bs, -, hk, -, hct⟩ := encrypt_ok C entropy key plaintext ad ct henc
  subst hct
  have hn : (fill nonceSize bs).length = nonceSize := fill_length _ _
  have hlen : ¬ (fill nonceSize bs ++
      C.aeadSeal key.Data (fill nonceSize bs) plaintext (adBytes ad)).length < nonceSize := by
    rw [List.length_append, hn]
    omega
  rw [decrypt_open C key _ ad hk hlen, List.take_left' hn, List.drop_left' hn, hC]

/-- Witness for C1 at a concrete key, plaintext and entropy stream. -/
theorem encrypt_decrypt_roundtrip_witness :
    Decrypt padAEAD ⟨List.replicate 32 0⟩
      (List.replicate 24 1 ++ ([1, 2, 3] ++ List.replicate 16 0)) none
      = GoResult.ok [1, 2, 3] :=
  encrypt_decrypt_roundtrip padAEAD padAEAD_roundtrip (some (List.replicate 24 1))
    ⟨List.replicate 32 0⟩ [1, 2, 3] none _ (by decide)

/-- C2: evaluation of NewSessionKey at a valid 32-byte salt with a working
entropy source shows the returned key has an empty Data buffer: the copy
into the zero value Key's nil Data slice transfers zero bytes, so the
keySize random bytes are discarded. -/
theorem newSessionKey_returns_empty_key :
    NewSessionKey (some (List.replicate 32 7)) (List.replicate 32 0) = GoResult.ok ⟨[]⟩ ∧
    ([] : List Nat).length ≠ keySize := by decide

/-- C3 counterexample: encrypting with present-but-empty associated data and
decrypting with absent associated data succeeds (both are the empty byte
string to the AEAD) — here with the tagAEAD instance, which satisfies both
RoundTrip and ADBinding — contradicting the claim that this case must fail
with an authentication error. -/
theorem ad_empty_vs_absent_succeeds :
    Encrypt tagAEAD (some (List.replicate 24 1)) ⟨List.replicate 32 0⟩ [5, 6] (some [])
      = GoResult.ok (List.replicate 24 1 ++ [0, 5, 6]) ∧
    Decrypt tagAEAD ⟨List.replicate 32 0⟩ (List.replicate 24 1 ++ [0, 5, 6]) none
      = GoResult.ok [5, 6] := by decide

/-- C3 amended: decryption fails with an authentication error exactly when
the associated-data byte content differs between seal and open; absent and
present-but-empty associated data are both the empty byte string, hence
equivalent. -/
theorem ad_byte_mismatch_fails (C : XChaCha) (hC : ADBinding C)
    (entropy : Option (List Nat)) (key : Key) (plaintext : List Nat)
    (a b : Option (List Nat)) (hab : adBytes a ≠ adBytes b) (ct : List Nat)
    (henc : Encrypt C entropy key plaintext a = GoResult.ok ct) :
    Decrypt C key ct b = GoResult.err CryptoError.authenticationError := by
  obtain ⟨bs, -, hk, -, hct⟩ := encrypt_ok C entropy key plaintext a ct henc
  subst hct
  have hn : (fill nonceSize bs).length = nonceSize := fill_length _ _
  have hlen : ¬ (fill nonceSize bs ++
      C.aeadSeal key.Data (fill nonceSize bs) plaintext (adBytes a)).length < nonceSize := by
    rw [List.length_append, hn]
    omega
  rw [decrypt_open C key _ b hk hlen, List.take_left' hn, List.drop_left' hn,
    hC _ _ _ _ _ hab]

/-- Witness for the amended C3 at concrete inputs with differing
associated-data bytes. -/
theorem ad_byte_mismatch_fails_witness :
    Decrypt tagAEAD ⟨List.replicate 32 0⟩ (List.replicate 24 1 ++ [1, 1, 9]) none
      = GoResult.err CryptoError.authenticationError :=
  ad_byte_mismatch_fails tagAEAD tagAEAD_adBinding (some (List.replicate 24 1))
    ⟨List.replicate 32 0⟩ [9] (some [1]) none (by decide) _ (by decide)

/-- C4 counterexample: on a salt of invalid length, NewSessionKey panics
(aborts) with the invalid-salt context; it does not return the recoverable
error value the claim requires. -/
theorem newSessionKey_invalid_salt_is_panic_not_error :
    NewSessionKey (some []) [] = GoResult.panicked (CryptoError.invalidSalt 32 0) ∧
    NewSessionKey (some []) [] ≠ GoResult.err (CryptoError.invalidSalt 32 0) := by decide

/-- C4 amended: for every salt whose length is not 32, NewSessionKey panics
with InvalidSaltError carrying the expected and actual lengths (the
validateSaltLen helper panics rather than returning an error), and no key
is produced. -/
theorem newSessionKey_invalid_salt_panics (entropy : Option (List Nat)) (salt : List Nat)
    (h : salt.length ≠ saltSize) :
    NewSessionKey entropy salt
      = GoResult.panicked (CryptoError.invalidSalt saltSize salt.length) := by
  unfold NewSessionKey validateSaltLen
  rw [if_pos h]

/-- Witness for the amended C4 at a 2-byte salt. -/
theorem newSessionKey_invalid_salt_panics_witness :
    NewSessionKey none [1, 2] = GoResult.panicked (CryptoError.invalidSalt 32 2) :=
  newSessionKey_invalid_salt_panics none [1, 2] (by decide)

/-- C5: for a fixed derivation function, password validator, params,
password and salt, any two successful NewIDKey calls return byte-identical
keys; the password path consumes no randomness. -/
theorem newIDKey_deterministic
    (argon2IDKey : List Nat → List Nat → Nat → Nat → Nat → Nat → List Nat)
    (pwValidate : List Nat → Nat → Bool) (params : Params) (password salt : List Nat)
    (k1 k2 : Key)
    (h1 : NewIDKey argon2IDKey pwValidate params password salt = GoResult.ok k1)
    (h2 : NewIDKey argon2IDKey pwValidate params password salt = GoResult.ok k2) :
    k1.Data = k2.Data := by
  rw [h1] at h2
  injection h2 with h
  rw [h]

/-- Witness for C5 at a concrete derivation function, password and salt. -/
theorem newIDKey_deterministic_witness :
    (⟨List.replicate 32 0⟩ : Key).Data = (⟨List.replicate 32 0⟩ : Key).Data :=
  newIDKey_deterministic (fun _ _ _ _ _ l => List.replicate l 0) (fun _ _ => true)
    DefaultParams [97] (List.replicate 32 0) ⟨List.replicate 32 0⟩ ⟨List.replicate 32 0⟩
    (by decide) (by decide)

/-- C6: NewIDKey with a salt of length other than 32 fails with the
invalid-salt error carrying the expected and actual lengths, for every
derivation function, password validator, params and password — the salt
check precedes the password check, so even a rejected password cannot
change the reported error. -/
theorem newIDKey_invalid_salt_error
    (argon2IDKey : List Nat → List Nat → Nat → Nat → Nat → Nat → List Nat)
    (pwValidate : List Nat → Nat → Bool) (params : Params) (password salt : List Nat)
    (h : salt.length ≠ saltSize) :
    NewIDKey argon2IDKey pwValidate params password salt
      = GoResult.err (CryptoError.invalidSalt saltSize salt.length) := by
  unfold NewIDKey
  rw [if_pos h]

/-- Witness for C6 with an empty salt and a validator rejecting every
password: the reported error is still the salt error. -/
theorem newIDKey_invalid_salt_error_witness :
    NewIDKey (fun _ _ _ _ _ l => List.replicate l 0) (fun _ _ => false) DefaultParams [] []
      = GoResult.err (CryptoError.invalidSalt 32 0) :=
  newIDKey_invalid_salt_error (fun _ _ _ _ _ l => List.replicate l 0) (fun _ _ => false)
    DefaultParams [] [] (by decide)

/-- C7: a successful Encrypt returns the nonce-prefixed layout
nonce ++ (ciphertext + tag) with total length nonceSize + plaintext length
+ 16, for any AEAD primitive with the documented 16-byte overhead. -/
theorem encrypt_layout_length (C : XChaCha) (hC : SealLen C)
    (entropy : Option (List Nat)) (key : Key) (plaintext : List Nat)
    (ad : Option (List Nat)) (ct : List Nat)
    (henc : Encrypt C entropy key plaintext ad = GoResult.ok ct) :
    ct.length = nonceSize + plaintext.length + 16 ∧
    ∃ bs, entropy = some bs ∧
      ct = fill nonceSize bs ++ C.aeadSeal key.Data (fill nonceSize bs) plaintext (adBytes ad) ∧
      (fill nonceSize bs).length = nonceSize := by
  obtain ⟨bs, hbs, hk, hz, hct⟩ := encrypt_ok C entropy key plaintext ad ct henc
  refine ⟨?_, bs, hbs, hct, fill_length _ _⟩
  rw [hct, List.length_append, fill_length, hC]
  omega

/-- Witness for C7: encrypting the 11-byte plaintext hello world with no
associated data yields a 51-byte ciphertext. -/
theorem encrypt_layout_length_witness :
    (List.replicate 24 2 ++ (helloWorld ++ List.replicate 16 0)).length = 51 := by
  have h := encrypt_layout_length padAEAD padAEAD_sealLen (some (List.replicate 24 2))
    ⟨List.replicate 32 0⟩ helloWorld none
    (List.replicate 24 2 ++ (helloWorld ++ List.replicate 16 0)) (by decide)
  exact h.1.trans (by decide)

/-- C8: with a 32-byte key, Decrypt rejects every input shorter than the
24-byte nonce with the too-short error, and it returns plaintext only when
the input was long enough and the AEAD open authenticated it — every
failure path returns an error and no bytes. -/
theorem decrypt_fail_closed (C : XChaCha) (key : Key) (encrypted : List Nat)
    (ad : Option (List Nat)) (hk : key.Data.length = keySize) :
    (encrypted.length < nonceSize →
      Decrypt C key encrypted ad = GoResult.err CryptoError.tooShortCiphertext) ∧
    (∀ p, Decrypt C key encrypted ad = GoResult.ok p →
      nonceSize ≤ encrypted.length ∧
      C.aeadOpen key.Data (encrypted.take nonceSize) (encrypted.drop nonceSize) (adBytes ad)
        = some p) := by
  constructor
  · intro hshort
    unfold Decrypt
    rw [if_neg (not_not_intro hk), if_pos hshort]
  · intro p hp
    by_cases hlen : encrypted.length < nonceSize
    · unfold Decrypt at hp
      rw [if_neg (not_not_intro hk), if_pos hlen] at hp
      exact (GoResult.noConfusion hp)
    · refine ⟨Nat.le_of_not_lt hlen, ?_⟩
      rw [decrypt_open C key encrypted ad hk hlen] at hp
      split at hp
      · exact (GoResult.noConfusion hp)
      next q hq =>
        injection hp with hpe
        rw [hq, hpe]

/-- Witness for C8 at a 3-byte input. -/
theorem decrypt_fail_closed_witness :
    Decrypt padAEAD ⟨List.replicate 32 0⟩ [1, 2, 3] none
      = GoResult.err CryptoError.tooShortCiphertext :=
  (decrypt_fail_closed padAEAD ⟨List.replicate 32 0⟩ [1, 2, 3] none (by decide)).1 (by decide)

/-- C10: with a key whose Data buffer is not exactly 32 bytes (the empty
buffer included), Encrypt and Decrypt both return the cipher-initialization
error — independently of plaintext, ciphertext and associated data — and
neither panics nor produces output bytes. -/
theorem wrong_key_cipher_init_error (C : XChaCha) (entropy : Option (List Nat))
    (key : Key) (hk : key.Data.length ≠ keySize) (plaintext ciphertext : List Nat)
    (ad : Option (List Nat)) :
    Encrypt C entropy key plaintext ad = GoResult.err CryptoError.cipherInitError ∧
    Decrypt C key ciphertext ad = GoResult.err CryptoError.cipherInitError := by
  constructor
  · unfold Encrypt
    rw [if_pos hk]
  · unfold Decrypt
    rw [if_pos hk]

/-- Witness for C10 at the empty key buffer. -/
theorem wrong_key_cipher_init_error_witness :
    Encrypt padAEAD none ⟨[]⟩ [1] none = GoResult.err CryptoError.cipherInitError ∧
    Decrypt padAEAD ⟨[]⟩ (List.replicate 41 0) none
      = GoResult.err CryptoError.cipherInitError :=
  wrong_key_cipher_init_error padAEAD none ⟨[]⟩ (by decide) [1] (List.replicate 41 0) none

theorem encryptH_store_frame (C : XChaCha) (entropy : Option (List Nat)) (h : Heap)
    (keyId ptId : Nat) (ad : Option (List Nat)) (i : Nat) (hi : i ≠ h.next) :
    (EncryptH C entropy h keyId ptId ad).2.store i = h.store i := by
  simp only [EncryptH, Heap.alloc, Heap.write]
  split
  · rfl
  · split
    · simp [hi]
    · split
      · simp [hi]
      · simp [hi]

theorem encryptH_fresh (C : XChaCha) (entropy : Option (List Nat)) (h : Heap)
    (keyId ptId : Nat) (ad : Option (List Nat)) (oId : Nat)
    (ho : (EncryptH C entropy h keyId ptId ad).1 = GoResult.ok oId) :
    oId = h.next := by
  simp only [EncryptH, Heap.alloc, Heap.write] at ho
  split at ho
  · exact (GoResult.noConfusion ho)
  · split at ho
    · simp at ho
    · split at ho
      · simp at ho
        omega
      · simp at ho

/-- C9: Encrypt leaves the key buffer and the plaintext buffer unchanged;
the only buffer it writes is the freshly allocated one carrying the nonce
and the sealed output, and the id it returns on success names that fresh
buffer, distinct from both inputs. -/
theorem encrypt_frame (C : XChaCha) (entropy : Option (List Nat)) (h : Heap)
    (keyId ptId : Nat) (ad : Option (List Nat))
    (hkey : keyId < h.next) (hpt : ptId < h.next) :
    (EncryptH C entropy h keyId ptId ad).2.store keyId = h.store keyId ∧
    (EncryptH C entropy h keyId ptId ad).2.store ptId = h.store ptId ∧
    ∀ oId, (EncryptH C entropy h keyId ptId ad).1 = GoResult.ok oId →
      oId ≠ keyId ∧ oId ≠ ptId := by
  refine ⟨encryptH_store_frame C entropy h keyId ptId ad keyId (Nat.ne_of_lt hkey),
    encryptH_store_frame C entropy h keyId ptId ad ptId (Nat.ne_of_lt hpt),
    fun oId ho => ?_⟩
  have hfresh := encryptH_fresh C entropy h keyId ptId ad oId ho
  subst hfresh
  exact ⟨Ne.symm (Nat.ne_of_lt hkey), Ne.symm (Nat.ne_of_lt hpt)⟩

/-- Witness for C9 on a concrete two-buffer heap: after encryption, the key
buffer and the plaintext buffer hold their original contents. -/
theorem encrypt_frame_witness :
    (EncryptH padAEAD (some (List.replicate 24 3)) h0 0 1 none).2.store 0 = h0.store 0 ∧
    (EncryptH padAEAD (some (List.replicate 24 3)) h0 0 1 none).2.store 1 = h0.store 1 := by
  have hfr := encrypt_frame padAEAD (some (List.replicate 24 3)) h0 0 1 none
    (by decide) (by decide)
  exact ⟨hfr.1, hfr.2.1⟩
